import Mathlib

/-!
Verification development for the TestOrchestrator repository
(`src/services/configService.ts`, `src/services/containerService.ts`,
`src/services/orchestrationService.ts`).

The TypeScript services are shallowly embedded as executable Lean
definitions.  JavaScript strings are modelled by Lean `String` with the
relevant `String.prototype` operations re-implemented over the underlying
character list (so that every definition evaluates inside the kernel);
JavaScript numbers that the orchestrator computes with are modelled by `ℚ`;
`undefined`-able values are modelled by `Option`; a JavaScript `throw` is
modelled by `Except.error`.  The asynchronous remote calls (ARM
`jobs.beginStartAndWait`, App Configuration reads) are opaque collaborators
and enter the model as explicit function/value parameters.  The cooperative
concurrency of `runWithConcurrencyLimit` is modelled by a small-step
transition relation over the pool state (shared cursor, result slots, one
lane per worker), with one transition per synchronous stretch between
`await` points.
-/

namespace TestOrchestrator

/-! ## JavaScript string primitives, modelled over character lists -/

/-- JavaScript `String.prototype.trim()`: drop leading and trailing
whitespace. -/
def jsTrimList (cs : List Char) : List Char :=
  ((cs.dropWhile Char.isWhitespace).reverse.dropWhile Char.isWhitespace).reverse

/-- JavaScript `s.trim()` on a string value. -/
def jsTrim (s : String) : String := String.mk (jsTrimList s.data)

/-- JavaScript `String.prototype.toLowerCase()` (ASCII is all the
orchestrator compares). -/
def jsToLower (s : String) : String := String.mk (s.data.map Char.toLower)

/-- Substring occurrence over character lists (JavaScript
`String.prototype.includes`). -/
def listContainsSub (hay sub : List Char) : Bool :=
  match hay with
  | [] => sub.isEmpty
  | _ :: t => sub.isPrefixOf hay || listContainsSub t sub

/-- JavaScript `s.includes(sub)` on string values. -/
def jsIncludes (s sub : String) : Bool := listContainsSub s.data sub.data

/-- JavaScript `s.split(",")` over the character list, preserving empty
fields. -/
def splitCommaAux (acc : List Char) : List Char → List String
  | [] => [String.mk acc.reverse]
  | c :: rest =>
      if c = ',' then String.mk acc.reverse :: splitCommaAux [] rest
      else splitCommaAux (c :: acc) rest

/-- JavaScript `s.split(",")` on a string value. -/
def jsSplitComma (s : String) : List String := splitCommaAux [] s.data

/-- The JavaScript idiom `a || b` for an optional string `a`: an absent
(`undefined`) or empty string falls through to `b`. -/
def jsOrS (a : Option String) (b : String) : String :=
  match a with
  | some s => if s = "" then b else s
  | none => b

/-- The list-resolution idiom `s.split(",").map(x => x.trim()).filter(Boolean)`
used by `getTestMatrixFromAppConfig`. -/
def splitTrimFilter (s : String) : List String :=
  ((jsSplitComma s).map jsTrim).filter (fun t => !(t == ""))

/-! ## Data model (`src/types`) -/

/-- One matrix cell (`TestConfig` in `src/types`): environment × platform. -/
structure TestConfig where
  env : String
  platform : String
deriving DecidableEq, Repr

/-- Network intent (`VNetConfig` in `src/types`); descriptive only. -/
structure VNetConfig where
  enabled : Bool
  vnetName : String
  subnetResourceId : Option String
  subnetName : Option String
  internalOnly : Bool
deriving DecidableEq, Repr

/-- Runner container configuration (`ContainerConfig` in `src/types`).
`runnerEnv` is a JavaScript object used as a string map; JavaScript objects
enumerate string keys in insertion order, so it is modelled as an ordered
association list. -/
structure ContainerConfig where
  image : Option String
  cpu : ℚ
  memoryGB : ℚ
  network : Option VNetConfig
  runnerEnv : Option (List (String × String))
deriving DecidableEq, Repr

/-- One `{name, value}` environment variable sent to the execution
template. -/
structure EnvVar where
  name : String
  value : String
deriving DecidableEq, Repr

/-- Per-cell execution outcome (`JobExecutionResult` in `src/types`). -/
structure JobExecutionResult where
  jobName : String
  executionName : String
  executionId : Option String
  config : TestConfig
  success : Bool
  error : Option String
  startedAt : Option String
deriving DecidableEq, Repr

/-- Aggregate report (`TestExecutionResponse` in `src/types`). -/
structure TestExecutionResponse where
  success : Bool
  message : String
  totalExecutions : Nat
  successful : Nat
  failed : Nat
  executions : List JobExecutionResult
  timestamp : String
deriving DecidableEq, Repr

/-! ## ConfigService (`src/services/configService.ts`)

App Configuration is an external collaborator: a value read for a key is
modelled as `Option String` (`none` when the call threw / the setting or its
value is absent), and raw `process.env` variables likewise as
`Option String` parameters. -/

/-- The cross product `environments.flatMap(env => platforms.map(platform =>
({env, platform})))` from `getTestMatrixFromAppConfig`. -/
def crossMatrix (environments platforms : List String) : List TestConfig :=
  environments.flatMap (fun env => platforms.map (fun platform => ⟨env, platform⟩))

/-- The environments list resolved by `getTestMatrixFromAppConfig`.
`primary = none` models the `catch` branch (an App Configuration read
threw); both branches apply the same `App Config value || env var ||
literal default` chain, the catch branch with no App Config value. -/
def resolvedEnvironments (primary : Option (Option String × Option String))
    (testEnvironmentsVar : Option String) : List String :=
  match primary with
  | some (envSettingValue, _) =>
      splitTrimFilter (jsOrS envSettingValue (jsOrS testEnvironmentsVar "prod,stage,qa"))
  | none => splitTrimFilter (jsOrS testEnvironmentsVar "prod,stage,qa")

/-- The platforms list resolved by `getTestMatrixFromAppConfig`. -/
def resolvedPlatforms (primary : Option (Option String × Option String))
    (testPlatformsVar : Option String) : List String :=
  match primary with
  | some (_, platformSettingValue) =>
      splitTrimFilter (jsOrS platformSettingValue (jsOrS testPlatformsVar "web,mobile"))
  | none => splitTrimFilter (jsOrS testPlatformsVar "web,mobile")

/-- Model of `ConfigService.getTestMatrixFromAppConfig` (and hence `getTestMatrix`):
resolve both comma-separated lists and return their cross product.
`primary` carries the two App Configuration values
(`TestMatrix:Environments`, `TestMatrix:Platforms`) when the reads
succeeded, `none` when one threw. -/
def getTestMatrixFromAppConfig (primary : Option (Option String × Option String))
    (testEnvironmentsVar testPlatformsVar : Option String) : List TestConfig :=
  crossMatrix (resolvedEnvironments primary testEnvironmentsVar)
    (resolvedPlatforms primary testPlatformsVar)

/-- Decimal digit run to a natural number. -/
def digitsVal (cs : List Char) : Nat :=
  cs.foldl (fun a c => a * 10 + (c.toNat - 48)) 0

/-- JavaScript `Number(s)` restricted to the decimal numerals the
orchestrator configures with: optional sign, an integer part and/or a
fractional part.  `none` models `NaN` (and the non-finite values that
`getConcurrencyLimit` rejects the same way).  Other numeric spellings
accepted by `Number` (hex, exponent) are outside the configuration surface
and are not modelled. -/
def jsNumber (s : String) : Option ℚ :=
  let cs := s.data
  let signAndRest : ℚ × List Char :=
    match cs with
    | '-' :: rest => (-1, rest)
    | '+' :: rest => (1, rest)
    | _ => (1, cs)
  let sign := signAndRest.1
  let body := signAndRest.2
  let intPart := body.takeWhile Char.isDigit
  let rest := body.dropWhile Char.isDigit
  match rest with
  | [] => if intPart.isEmpty then none else some (sign * (digitsVal intPart : ℚ))
  | '.' :: fr =>
      let fracPart := fr.takeWhile Char.isDigit
      let rest2 := fr.dropWhile Char.isDigit
      if rest2.isEmpty && !(intPart.isEmpty && fracPart.isEmpty) then
        some (sign * ((digitsVal intPart : ℚ) + (digitsVal fracPart : ℚ) / (10 : ℚ) ^ fracPart.length))
      else none
  | _ => none

/-- The clamp `n => Math.max(1, Math.min(25, n))` from
`getConcurrencyLimit`. -/
def clampConcurrency (n : ℚ) : ℚ := max 1 (min 25 n)

/-- Model of `ConfigService.getConcurrencyLimit`: App Configuration value
(`Orchestration:ConcurrencyLimit`), then `ORCH_CONCURRENCY_LIMIT`, then the
default, the first non-empty value that parses to a finite number winning,
and the winner clamped into `[1, 25]`. -/
def getConcurrencyLimit (settingValue envValue : Option String) (defaultValue : ℚ) : ℚ :=
  let raw := jsTrim (jsOrS settingValue "")
  match (if raw = "" then none else jsNumber raw) with
  | some parsed => clampConcurrency parsed
  | none =>
      let envRaw := jsTrim (jsOrS envValue "")
      match (if envRaw = "" then none else jsNumber envRaw) with
      | some parsed => clampConcurrency parsed
      | none => clampConcurrency defaultValue

/-! ## ContainerService (`src/services/containerService.ts`) -/

/-- JavaScript `String.prototype.lastIndexOf` for a single character:
the greatest index holding `c`, or `-1` when `c` does not occur. -/
def lastIndexOfChar (cs : List Char) (c : Char) : Int :=
  match cs with
  | [] => -1
  | ch :: rest =>
      if 0 ≤ lastIndexOfChar rest c then lastIndexOfChar rest c + 1
      else if ch = c then 0 else -1

/-- JavaScript `s.lastIndexOf(c)` on a string value. -/
def jsLastIndexOf (s : String) (c : Char) : Int := lastIndexOfChar s.data c

/-- JavaScript `s.slice(i)` on a string value (for a non-negative start). -/
def jsSliceFrom (s : String) (i : Nat) : String := String.mk (s.data.drop i)

/-- Model of `ContainerService.tryExtractImageTag`: the substring after the last
`:` when that `:` falls after the last `/`; digest references (`@`) and
references without such a `:` yield no tag; a blank tag yields no tag. -/
def tryExtractImageTag (image : String) : Option String :=
  let v := jsTrim image
  if v = "" then none
  else if jsIncludes v "@" then none
  else
    let lastSlash := jsLastIndexOf v '/'
    let lastColon := jsLastIndexOf v ':'
    if lastSlash < lastColon then
      let tag := jsTrim (jsSliceFrom v (lastColon + 1).toNat)
      if tag = "" then none else some tag
    else none

/-- Model of `ContainerService.toGi`: floor the configured GiB at 0.25 and render
with the `Gi` suffix.  (The JavaScript decimal rendering of a non-integer
float is abstracted to `ℚ`.) -/
def toGi (memoryGB : ℚ) : String :=
  let gb := max (1/4 : ℚ) memoryGB
  (if gb.den = 1 then toString gb.num else toString gb) ++ "Gi"

/-- Model of `ContainerService.requireTestAutomationRunnerImage`: a present,
non-blank image reference, else a thrown error. -/
def requireTestAutomationRunnerImage (image : Option String) : Except String String :=
  let v := jsTrim (jsOrS image "")
  if v = "" then
    Except.error ("Missing runner image. Set CONTAINER_IMAGE (or App Config key Container:Image). " ++
      "Azure Job execution template override requires image when specifying template.containers.")
  else Except.ok v

/-- The reserved-key test from the passthrough loop in
`buildExecutionEnv`. -/
def isReservedEnvName (name : String) : Bool :=
  name == "ENV" || name == "ENV_LABEL" || name == "PLATFORM" || name == "RUN_ID" ||
    name == "BUILD_NUMBER"

/-- The `for (const [name, value] of Object.entries(runnerEnv))` loop of
`buildExecutionEnv`: append non-reserved passthrough entries, warn and skip
reserved ones.  Returns the accumulated env list and warning log. -/
def appendRunnerEnv (env : List EnvVar) (warns : List String) :
    List (String × String) → List EnvVar × List String
  | [] => (env, warns)
  | (name, value) :: rest =>
      if isReservedEnvName name then
        appendRunnerEnv env (warns ++ ["runnerEnv ignored reserved key " ++ name]) rest
      else
        appendRunnerEnv (env ++ [⟨name, value⟩]) warns rest

/-- Model of `ContainerService.buildExecutionEnv`: the dynamic variables `ENV`,
`ENV_LABEL`, `PLATFORM`, `RUN_ID` (the fresh `randomUUID().split('-')[0]`
token is the parameter `runId`), then `BUILD_NUMBER` when a tag is
derivable from the image (warn otherwise), then the non-reserved
passthrough entries.  The second component is the warning log. -/
def buildExecutionEnv (testConfig : TestConfig) (runnerEnv : Option (List (String × String)))
    (image : String) (runId : String) : List EnvVar × List String :=
  let base : List EnvVar :=
    [⟨"ENV", testConfig.env⟩, ⟨"ENV_LABEL", testConfig.env⟩,
     ⟨"PLATFORM", testConfig.platform⟩, ⟨"RUN_ID", runId⟩]
  let withBuild : List EnvVar × List String :=
    match tryExtractImageTag image with
    | some buildNumber => (base ++ [⟨"BUILD_NUMBER", buildNumber⟩], [])
    | none =>
        (base,
         ["BUILD_NUMBER not injected: could not derive tag from CONTAINER_IMAGE (missing tag or digest image)."])
  match runnerEnv with
  | none => withBuild
  | some entries => appendRunnerEnv withBuild.1 withBuild.2 entries

/-- The template payload handed to `client.jobs.beginStartAndWait`. -/
structure StartExecutionRequest where
  resourceGroup : String
  jobName : String
  containerName : String
  image : String
  cpu : ℚ
  memory : String
  env : List EnvVar
deriving DecidableEq, Repr

/-- The value resolved by a successful `beginStartAndWait` (its `name` and
`id` may each be absent). -/
structure ArmExecution where
  name : Option String
  id : Option String
deriving DecidableEq, Repr

/-- The template-override payload that `startTestExecution` passes to
`client.jobs.beginStartAndWait` (container name from
`RUNNER_CONTAINER_NAME` with the `test-executor` default, resources, and
the built env list). -/
def startRequest (resourceGroup jobName : String) (testConfig : TestConfig)
    (containerConfig : ContainerConfig) (image : String) (runId : String)
    (runnerContainerNameVar : Option String) : StartExecutionRequest :=
  { resourceGroup := resourceGroup
  , jobName := jobName
  , containerName := jsTrim (jsOrS runnerContainerNameVar "test-executor")
  , image := image
  , cpu := containerConfig.cpu
  , memory := toGi containerConfig.memoryGB
  , env := (buildExecutionEnv testConfig containerConfig.runnerEnv image runId).1 }

/-- Model of `ContainerService.startTestExecution`: build the template override and
start one execution; any thrown error (missing image, or the remote call
rejecting — the parameter `remote`) is caught and converted into a failed
`JobExecutionResult`.  The `Bool` component records whether the remote
call was reached.  `runId` stands for the per-call `randomUUID` token and
`now` for `new Date().toISOString()`. -/
def startTestExecution (resourceGroup jobName : String) (testConfig : TestConfig)
    (containerConfig : ContainerConfig)
    (remote : StartExecutionRequest → Except String ArmExecution)
    (runId : String) (runnerContainerNameVar : Option String) (now : String) :
    JobExecutionResult × Bool :=
  match requireTestAutomationRunnerImage containerConfig.image with
  | Except.error msg =>
      ({ jobName := jobName, executionName := "unknown", executionId := none,
         config := testConfig, success := false, error := some msg, startedAt := none },
       false)
  | Except.ok image =>
      match remote (startRequest resourceGroup jobName testConfig containerConfig image runId
          runnerContainerNameVar) with
      | Except.ok execution =>
          ({ jobName := jobName, executionName := jsOrS execution.name "unknown",
             executionId := execution.id, config := testConfig, success := true,
             error := none, startedAt := some now },
           true)
      | Except.error msg =>
          ({ jobName := jobName, executionName := "unknown", executionId := none,
             config := testConfig, success := false, error := some msg, startedAt := none },
           true)

/-! ## OrchestrationService (`src/services/orchestrationService.ts`) -/

/-- The summary block of `OrchestrationService.executeTests` (steps 6 and
the returned `TestExecutionResponse`), as a pure function of the ordered
result list. -/
def summarizeResults (results : List JobExecutionResult) (timestamp : String) :
    TestExecutionResponse :=
  let successful := (results.filter (fun r => r.success)).length
  let failed := (results.filter (fun r => !r.success)).length
  { success := failed == 0
  , message :=
      if failed == 0 then "All executions started successfully"
      else toString failed ++ " execution(s) failed to start"
  , totalExecutions := results.length
  , successful := successful
  , failed := failed
  , executions := results
  , timestamp := timestamp }

/-- The per-error pattern of the job-not-found heuristic in
`executeTests` (the predicate inside `errors.some(...)`). -/
def errorIndicatesJobNotFound (e : String) : Bool :=
  jsIncludes e "microsoft.app/jobs" && (jsIncludes e "not found" || jsIncludes e "resourcenotfound")

/-- The advisory hint condition of `executeTests`: every execution failed
to start, and some lower-cased error message matches the job-not-found
pattern. -/
def jobNotFoundHint (results : List JobExecutionResult) : Bool :=
  let failed := (results.filter (fun r => !r.success)).length
  let allFailed := decide (results.length > 0) && (failed == results.length)
  allFailed && (results.map (fun r => jsToLower (jsOrS r.error ""))).any errorIndicatesJobNotFound

/-- The observable outcome of the reporting phase of `executeTests`: the
returned response and whether the advisory hint block was logged. -/
def executeTestsReport (results : List JobExecutionResult) (timestamp : String) :
    TestExecutionResponse × Bool :=
  (summarizeResults results timestamp, jobNotFoundHint results)

/-! ## The worker-pool scheduler `runWithConcurrencyLimit`

Each lane runs `while (true) { const current = index++; if (current >=
items.length) return; results[current] = await worker(items[current]); }`.
Everything between two `await` points is synchronous, hence atomic; the
model therefore gives each lane two atomic moves: claim the next cursor
value (returning when it is past the end), and resume from the `await`,
writing the worker result into the claimed slot.  The per-index worker
value is the parameter `f` (the worker promise for index `i` resolves to
`f i`; in `executeTests` the worker never rejects, because
`startTestExecution` catches). -/

/-- The control point of one lane of `runWithConcurrencyLimit`. -/
inductive LaneState where
  | atLoop : LaneState
  | awaiting (i : Nat) : LaneState
  | done : LaneState
deriving DecidableEq, Repr

/-- The shared state of `runWithConcurrencyLimit`: the shared cursor
`index`, the `results` array (`none` = unwritten slot), and the lanes. -/
structure PoolState (β : Type) where
  cursor : Nat
  results : List (Option β)
  lanes : List LaneState
deriving DecidableEq, Repr

/-- JavaScript `new Array(len)` length validation: the length must be a
non-negative integer (below 2^32, which a lane count over a list always
is), else the construction throws `RangeError: Invalid array length`. -/
def jsNewArrayLen (x : ℚ) : Except String Nat :=
  if 0 ≤ x ∧ x.den = 1 then Except.ok x.num.toNat
  else Except.error "RangeError: Invalid array length"

/-- The lane count `Math.min(Math.max(1, concurrencyLimit), items.length)`
of `runWithConcurrencyLimit`, as the JavaScript number it is.  The
concurrency limit is a JavaScript number and can be fractional: a
fractional configured value such as `2.5` survives `getConcurrencyLimit`'s
finiteness check and clamp. -/
def laneCount (n : Nat) (concurrencyLimit : ℚ) : ℚ :=
  min (max 1 concurrencyLimit) (n : ℚ)

/-- The synchronous prologue of `runWithConcurrencyLimit` over `n` items
with the requested `concurrencyLimit`: allocate the results array and the
lane array (all lanes at the loop head).  `new Array(Math.min(limit,
items.length))` throws `RangeError` when the lane count is not an integer
— which happens exactly when the limit is fractional and less than the
item count. -/
def initPool (β : Type) (n : Nat) (concurrencyLimit : ℚ) : Except String (PoolState β) :=
  match jsNewArrayLen (laneCount n concurrencyLimit) with
  | Except.ok m =>
      Except.ok { cursor := 0
                , results := List.replicate n none
                , lanes := List.replicate m LaneState.atLoop }
  | Except.error e => Except.error e

/-- One atomic move of one lane of `runWithConcurrencyLimit`. -/
inductive PoolStep (β : Type) (n : Nat) (f : Nat → β) : PoolState β → PoolState β → Prop where
  /-- Step `const current = index++` with `current < items.length`: the lane
  claims slot `current` and suspends on `worker(items[current])`. -/
  | claim (s : PoolState β) (k : Nat) (hk : s.lanes[k]? = some LaneState.atLoop)
      (hc : s.cursor < n) :
      PoolStep β n f s
        { cursor := s.cursor + 1, results := s.results,
          lanes := s.lanes.set k (LaneState.awaiting s.cursor) }
  /-- Step `const current = index++` with `current >= items.length`: the lane
  returns. -/
  | claimStop (s : PoolState β) (k : Nat) (hk : s.lanes[k]? = some LaneState.atLoop)
      (hc : n ≤ s.cursor) :
      PoolStep β n f s
        { cursor := s.cursor + 1, results := s.results,
          lanes := s.lanes.set k LaneState.done }
  /-- The awaited worker promise for slot `i` resolves: the lane writes
  `results[i]` and loops. -/
  | resume (s : PoolState β) (k : Nat) (i : Nat)
      (hk : s.lanes[k]? = some (LaneState.awaiting i)) :
      PoolStep β n f s
        { cursor := s.cursor, results := s.results.set i (some (f i)),
          lanes := s.lanes.set k LaneState.atLoop }

/-- Completion: `Promise.all(lanes)` has resolved, every lane returned. -/
def PoolDone {β : Type} (s : PoolState β) : Prop :=
  ∀ l ∈ s.lanes, l = LaneState.done

/-- The inductive invariant of the pool: result slots and lanes keep their
count, every claimed index is resolved or owned by a suspended lane, and a
lane only returns once the cursor has passed the end. -/
def PoolInv (β : Type) (n m : Nat) (f : Nat → β) (s : PoolState β) : Prop :=
  s.results.length = n ∧
  s.lanes.length = m ∧
  (∀ i, i < n → i < s.cursor →
    s.results[i]? = some (some (f i)) ∨ ∃ k : Nat, s.lanes[k]? = some (LaneState.awaiting i)) ∧
  (∀ k : Nat, s.lanes[k]? = some LaneState.done → n ≤ s.cursor)

/-! ## Scheduler lemmas -/

/-- The pool invariant holds in any freshly allocated state. -/
theorem poolInv_init (β : Type) (n m : Nat) (f : Nat → β) :
    PoolInv β n m f
      { cursor := 0, results := List.replicate n none,
        lanes := List.replicate m LaneState.atLoop } := by
  refine ⟨List.length_replicate _ _, List.length_replicate _ _, ?_, ?_⟩
  · intro i _ hic
    exact absurd hic (Nat.not_lt_zero i)
  · intro k hk
    simp [List.getElem?_replicate] at hk

/-- A successful prologue yields the fresh state, with at least one lane
whenever there is at least one item (the lane count is at least
`min(1, n)`). -/
theorem initPool_ok {β : Type} {n : Nat} {limit : ℚ} {s0 : PoolState β}
    (h : initPool β n limit = Except.ok s0) :
    ∃ m, s0 = { cursor := 0, results := List.replicate n none,
                lanes := List.replicate m LaneState.atLoop } ∧ (0 < n → 0 < m) := by
  simp only [initPool] at h
  rcases harr : jsNewArrayLen (laneCount n limit) with e | m
  · rw [harr] at h
    exact Except.noConfusion h
  · rw [harr] at h
    cases h
    refine ⟨m, rfl, ?_⟩
    intro hn
    simp only [jsNewArrayLen] at harr
    split_ifs at harr with hcond
    · cases harr
      have h1 : (1 : ℚ) ≤ laneCount n limit := by
        refine le_min (le_max_left _ _) ?_
        exact_mod_cast hn
      have h2 : 0 < laneCount n limit := lt_of_lt_of_le one_pos h1
      have h3 : 0 < (laneCount n limit).num := Rat.num_pos.mpr h2
      omega

/-- Every atomic move of the pool preserves the invariant. -/
theorem poolInv_step {β : Type} {n m : Nat} {f : Nat → β} {s s' : PoolState β}
    (hstep : PoolStep β n f s s') (hinv : PoolInv β n m f s) : PoolInv β n m f s' := by
  obtain ⟨hlen, hlanes, hclaimed, hdone⟩ := hinv
  cases hstep with
  | claim k hk hc =>
      have hklt : k < s.lanes.length := (List.getElem?_eq_some.mp hk).1
      refine ⟨hlen, by simpa using hlanes, ?_, ?_⟩
      · intro i hin hic
        rcases Nat.lt_succ_iff_lt_or_eq.mp hic with hlt | heq
        · rcases hclaimed i hin hlt with hres | ⟨k', hk'⟩
          · exact Or.inl hres
          · refine Or.inr ⟨k', ?_⟩
            have hkk : k ≠ k' := by
              intro hcontra
              subst hcontra
              rw [hk] at hk'
              cases hk'
            simpa [List.getElem?_set_ne hkk] using hk'
        · subst heq
          exact Or.inr ⟨k, by simp [List.getElem?_set_self', hklt]⟩
      · intro k' hk'
        by_cases hkk : k = k'
        · subst hkk
          simp [List.getElem?_set_self', hklt] at hk'
        · rw [List.getElem?_set_ne hkk] at hk'
          exact Nat.le_succ_of_le (hdone k' hk')
  | claimStop k hk hc =>
      have hklt : k < s.lanes.length := (List.getElem?_eq_some.mp hk).1
      refine ⟨hlen, by simpa using hlanes, ?_, ?_⟩
      · intro i hin hic
        rcases hclaimed i hin (Nat.lt_of_lt_of_le hin hc) with hres | ⟨k', hk'⟩
        · exact Or.inl hres
        · refine Or.inr ⟨k', ?_⟩
          have hkk : k ≠ k' := by
            intro hcontra
            subst hcontra
            rw [hk] at hk'
            cases hk'
          simpa [List.getElem?_set_ne hkk] using hk'
      · intro k' _
        exact Nat.le_succ_of_le hc
  | resume k i hk =>
      have hklt : k < s.lanes.length := (List.getElem?_eq_some.mp hk).1
      refine ⟨by simpa using hlen, by simpa using hlanes, ?_, ?_⟩
      · intro i' hin hic
        by_cases hii : i' = i
        · subst hii
          refine Or.inl ?_
          have : i' < s.results.length := hlen ▸ hin
          simp [List.getElem?_set_self', this]
        · rcases hclaimed i' hin hic with hres | ⟨k', hk'⟩
          · refine Or.inl ?_
            rw [List.getElem?_set_ne (fun h => hii h.symm)]
            exact hres
          · refine Or.inr ⟨k', ?_⟩
            have hkk : k ≠ k' := by
              intro hcontra
              subst hcontra
              rw [hk] at hk'
              cases hk'
              exact hii rfl
            simpa [List.getElem?_set_ne hkk] using hk'
      · intro k' hk'
        by_cases hkk : k = k'
        · subst hkk
          simp [List.getElem?_set_self', hklt] at hk'
        · rw [List.getElem?_set_ne hkk] at hk'
          exact hdone k' hk'

/-- The pool invariant holds in every state reachable from a given
invariant state. -/
theorem poolInv_reach {β : Type} {n m : Nat} {f : Nat → β} {s0 s : PoolState β}
    (hinv : PoolInv β n m f s0)
    (h : Relation.ReflTransGen (PoolStep β n f) s0 s) :
    PoolInv β n m f s := by
  induction h with
  | refl => exact hinv
  | tail _ hbc ih => exact poolInv_step hbc ih

/-- Scheduler correctness: whenever the prologue succeeds, any reachable
state in which every lane has returned holds one result per input item and
slot `i` holds the worker value for index `i`. -/
theorem pool_final {β : Type} {n : Nat} {limit : ℚ} {f : Nat → β} {s0 s : PoolState β}
    (hinit : initPool β n limit = Except.ok s0)
    (hreach : Relation.ReflTransGen (PoolStep β n f) s0 s)
    (hdone : PoolDone s) :
    s.results.length = n ∧ ∀ i, i < n → s.results[i]? = some (some (f i)) := by
  obtain ⟨m, rfl, hm⟩ := initPool_ok hinit
  obtain ⟨hlen, hlanes, hclaimed, hret⟩ := poolInv_reach (poolInv_init β n m f) hreach
  refine ⟨hlen, ?_⟩
  intro i hin
  have hlanespos : 0 < s.lanes.length := by
    rw [hlanes]
    exact hm (by omega)
  obtain ⟨l0, hl0⟩ : ∃ a, s.lanes[0]? = some a := ⟨s.lanes[0], List.getElem?_eq_getElem hlanespos⟩
  have hl0done : l0 = LaneState.done := hdone l0 (List.getElem?_mem hl0)
  have hcur : n ≤ s.cursor := hret 0 (hl0done ▸ hl0)
  rcases hclaimed i hin (Nat.lt_of_lt_of_le hin hcur) with hres | ⟨k, hk⟩
  · exact hres
  · have : LaneState.awaiting i = LaneState.done := hdone _ (List.getElem?_mem hk)
    cases this

/-- With no lanes no step is possible: a lane-free state is frozen, the
only state reachable from itself. -/
theorem pool_frozen_reach {β : Type} {n : Nat} {f : Nat → β} {s0 s : PoolState β}
    (hlanes : s0.lanes = [])
    (h : Relation.ReflTransGen (PoolStep β n f) s0 s) :
    s = s0 := by
  induction h with
  | refl => rfl
  | tail _ hbc ih =>
      subst ih
      cases hbc with
      | claim k hk hc => rw [hlanes] at hk; simp at hk
      | claimStop k hk hc => rw [hlanes] at hk; simp at hk
      | resume k i hk => rw [hlanes] at hk; simp at hk

/-- With zero items the lane count is `min(max(1, limit), 0) = 0` — an
integer for every limit, fractional ones included — so the prologue always
succeeds with no lanes and no result slots. -/
theorem initPool_zero (β : Type) (limit : ℚ) :
    initPool β 0 limit =
      Except.ok { cursor := 0, results := ([] : List (Option β)), lanes := [] } := by
  have hq : laneCount 0 limit = 0 := by
    simp only [laneCount, Nat.cast_zero]
    exact min_eq_right (le_trans zero_le_one (le_max_left _ _))
  simp [initPool, jsNewArrayLen, hq]

/-! ## ConfigService lemmas and claims -/

/-- Length of the cross product. -/
theorem crossMatrix_length (E P : List String) :
    (crossMatrix E P).length = E.length * P.length := by
  induction E with
  | nil => simp [crossMatrix]
  | cons e rest ih =>
      simp only [crossMatrix, List.flatMap_cons, List.length_append, List.length_map,
        List.length_cons]
      simp only [crossMatrix] at ih
      rw [ih]
      ring

/-- Env-major enumeration of the cross product: cell `(E[i], P[j])` sits at
flat index `i * |P| + j`. -/
theorem crossMatrix_getElem? (E P : List String) (i j : Nat) (e p : String)
    (he : E[i]? = some e) (hp : P[j]? = some p) :
    (crossMatrix E P)[i * P.length + j]? = some ⟨e, p⟩ := by
  induction E generalizing i with
  | nil => simp at he
  | cons e0 rest ih =>
      cases i with
      | zero =>
          simp only [List.getElem?_cons_zero, Option.some.injEq] at he
          subst he
          have hj : j < P.length := (List.getElem?_eq_some.mp hp).1
          simp only [crossMatrix, List.flatMap_cons, Nat.zero_mul, Nat.zero_add]
          rw [List.getElem?_append]
          rw [if_pos (by simpa using hj)]
          simp [List.getElem?_map, hp]
      | succ i' =>
          simp only [List.getElem?_cons_succ] at he
          have harith : (i' + 1) * P.length + j = P.length + (i' * P.length + j) := by ring
          simp only [crossMatrix, List.flatMap_cons, harith]
          rw [List.getElem?_append]
          rw [if_neg (by simp)]
          simpa using ih i' he

/-- C7 helper: the claim instantiated through the resolution layer. -/
theorem getTestMatrix_apply (primary : Option (Option String × Option String))
    (envVar platVar : Option String) :
    getTestMatrixFromAppConfig primary envVar platVar =
      crossMatrix (resolvedEnvironments primary envVar) (resolvedPlatforms primary platVar) :=
  rfl

/-- C7: `getTestMatrix` yields exactly `|E| × |P|` cells for the resolved
environments `E` and platforms `P`, enumerated environment-major:
the cell at flat index `i * |P| + j` is `(E[i], P[j])`. -/
theorem getTestMatrix_cross_product (primary : Option (Option String × Option String))
    (envVar platVar : Option String) :
    (getTestMatrixFromAppConfig primary envVar platVar).length =
      (resolvedEnvironments primary envVar).length * (resolvedPlatforms primary platVar).length ∧
    ∀ i j e p, (resolvedEnvironments primary envVar)[i]? = some e →
      (resolvedPlatforms primary platVar)[j]? = some p →
      (getTestMatrixFromAppConfig primary envVar platVar)[i * (resolvedPlatforms primary platVar).length + j]? =
        some ⟨e, p⟩ := by
  constructor
  · rw [getTestMatrix_apply]
    exact crossMatrix_length _ _
  · intro i j e p he hp
    rw [getTestMatrix_apply]
    exact crossMatrix_getElem? _ _ i j e p he hp

/-- Witness for C7 on the spec example `E = [qa,prod]`, `P = [web]`: the
matrix is `[(qa,web),(prod,web)]` and the cell at flat index `1*1+0` is
`(prod, web)`. -/
theorem getTestMatrix_cross_product_witness :
    getTestMatrixFromAppConfig (some (some "qa,prod", some "web")) none none =
      [⟨"qa", "web"⟩, ⟨"prod", "web"⟩] ∧
    (getTestMatrixFromAppConfig (some (some "qa,prod", some "web")) none none)[1 * (resolvedPlatforms (some (some "qa,prod", some "web")) none).length + 0]? =
      some ⟨"prod", "web"⟩ :=
  ⟨by decide,
   (getTestMatrix_cross_product (some (some "qa,prod", some "web")) none none).2 1 0 "prod" "web"
     (by decide) (by decide)⟩

/-- C4: when the primary source is unavailable (a read threw) or both of
its list values are absent/empty, and both raw environment lists are
absent/empty, `getTestMatrix` resolves the hard-coded default pair
`prod,stage,qa` × `web,mobile`; in particular the matrix is non-empty. -/
theorem getTestMatrix_defaults_nonempty (primary : Option (Option String × Option String))
    (envVar platVar : Option String)
    (hp : primary = none ∨
      ∃ ev pv, primary = some (ev, pv) ∧ (ev = none ∨ ev = some "") ∧ (pv = none ∨ pv = some ""))
    (he : envVar = none ∨ envVar = some "")
    (hq : platVar = none ∨ platVar = some "") :
    getTestMatrixFromAppConfig primary envVar platVar =
      crossMatrix ["prod", "stage", "qa"] ["web", "mobile"] ∧
    getTestMatrixFromAppConfig primary envVar platVar ≠ [] := by
  rcases hp with rfl | ⟨ev, pv, rfl, rfl | rfl, rfl | rfl⟩ <;>
    rcases he with rfl | rfl <;>
    rcases hq with rfl | rfl <;>
    exact ⟨by decide, by decide⟩

/-- Witness for C4: everything absent resolves to the six default cells. -/
theorem getTestMatrix_defaults_nonempty_witness :
    getTestMatrixFromAppConfig none none none ≠ [] :=
  (getTestMatrix_defaults_nonempty none none none (Or.inl rfl) (Or.inl rfl) (Or.inl rfl)).2

/-- The clamp of `getConcurrencyLimit` lands in `[1, 25]`. -/
theorem clampConcurrency_bounds (n : ℚ) :
    1 ≤ clampConcurrency n ∧ clampConcurrency n ≤ 25 := by
  unfold clampConcurrency
  exact ⟨le_max_left _ _, max_le (by norm_num) (min_le_left _ _)⟩

/-- Every branch of `getConcurrencyLimit` returns a clamped value. -/
theorem getConcurrencyLimit_eq_clamp (sv ev : Option String) (d : ℚ) :
    ∃ q, getConcurrencyLimit sv ev d = clampConcurrency q := by
  simp only [getConcurrencyLimit]
  split
  · exact ⟨_, rfl⟩
  · split
    · exact ⟨_, rfl⟩
    · exact ⟨_, rfl⟩

/-- C6 (amended): `getConcurrencyLimit` parses a number from the primary
source or the fallback environment variable and clamps it into `[1, 25]`;
input that does not parse to a finite number is treated as absent and the
default is clamped instead; raw inputs `0`, `100`, `12` yield `1`, `25`,
`12`.  (The returned value is a number, not necessarily an integer.) -/
theorem getConcurrencyLimit_clamped (sv ev : Option String) (d : ℚ) :
    (1 ≤ getConcurrencyLimit sv ev d ∧ getConcurrencyLimit sv ev d ≤ 25) ∧
    (jsNumber (jsTrim (jsOrS sv "")) = none → jsNumber (jsTrim (jsOrS ev "")) = none →
      getConcurrencyLimit sv ev d = clampConcurrency d) ∧
    getConcurrencyLimit (some "0") none 10 = 1 ∧
    getConcurrencyLimit (some "100") none 10 = 25 ∧
    getConcurrencyLimit (some "12") none 10 = 12 := by
  refine ⟨?_, ?_, ?_, ?_, ?_⟩
  · obtain ⟨q, hq⟩ := getConcurrencyLimit_eq_clamp sv ev d
    rw [hq]
    exact clampConcurrency_bounds q
  · intro h1 h2
    simp only [getConcurrencyLimit]
    rcases Decidable.em (jsTrim (jsOrS sv "") = "") with hsv | hsv <;>
      rcases Decidable.em (jsTrim (jsOrS ev "") = "") with hev | hev <;>
      simp [hsv, hev, h1, h2]
  · simp [getConcurrencyLimit, jsTrim, jsTrimList, jsOrS, jsNumber, digitsVal,
      List.takeWhile, List.dropWhile, clampConcurrency]
    try norm_num
  · simp [getConcurrencyLimit, jsTrim, jsTrimList, jsOrS, jsNumber, digitsVal,
      List.takeWhile, List.dropWhile, clampConcurrency]
    try norm_num
  · simp [getConcurrencyLimit, jsTrim, jsTrimList, jsOrS, jsNumber, digitsVal,
      List.takeWhile, List.dropWhile, clampConcurrency]
    try norm_num

/-- Witness for C6 (amended): with nothing configured, the default 10 is
returned (clamp of the default). -/
theorem getConcurrencyLimit_clamped_witness :
    getConcurrencyLimit none none 10 = clampConcurrency 10 :=
  (getConcurrencyLimit_clamped none none 10).2.1 rfl rfl

/-- C6 counterexample: the raw input `2.5` is numeric and finite, so the
code returns the non-integer 5/2 — refuting "the returned value is always
an integer in [1, 25]". -/
theorem getConcurrencyLimit_fractional_counterexample :
    getConcurrencyLimit (some "2.5") none 10 = 5 / 2 ∧
    (getConcurrencyLimit (some "2.5") none 10).den ≠ 1 := by
  have h : getConcurrencyLimit (some "2.5") none 10 = 5 / 2 := by
    simp [getConcurrencyLimit, jsTrim, jsTrimList, jsOrS, jsNumber, digitsVal,
      List.takeWhile, List.dropWhile, clampConcurrency]
    try norm_num
  refine ⟨h, ?_⟩
  rw [h]
  norm_num

/-! ## ContainerService lemmas and claims -/

/-- The value of `lastIndexOf` is never below `-1`. -/
theorem lastIndexOfChar_ge (cs : List Char) (c : Char) : -1 ≤ lastIndexOfChar cs c := by
  induction cs with
  | nil => simp [lastIndexOfChar]
  | cons ch rest ih =>
      simp only [lastIndexOfChar]
      split
      · omega
      · split <;> omega

/-- A character that occurs in the list has a non-negative last index. -/
theorem lastIndexOfChar_nonneg_of_mem (cs : List Char) (c : Char) (h : c ∈ cs) :
    0 ≤ lastIndexOfChar cs c := by
  induction cs with
  | nil => simp at h
  | cons ch rest ih =>
      simp only [lastIndexOfChar]
      by_cases hr : 0 ≤ lastIndexOfChar rest c
      · rw [if_pos hr]
        omega
      · rw [if_neg hr]
        rcases List.mem_cons.mp h with rfl | hmem
        · rw [if_pos rfl]
        · exact absurd (ih hmem) hr

/-- The last index dominates the index of every occurrence. -/
theorem lastIndexOfChar_ge_of_getElem? (cs : List Char) (c : Char) (j : Nat)
    (h : cs[j]? = some c) : (j : Int) ≤ lastIndexOfChar cs c := by
  induction cs generalizing j with
  | nil => simp at h
  | cons ch rest ih =>
      cases j with
      | zero =>
          simp only [List.getElem?_cons_zero, Option.some.injEq] at h
          subst h
          exact_mod_cast lastIndexOfChar_nonneg_of_mem _ _ (List.mem_cons_self _ _)
      | succ j' =>
          simp only [List.getElem?_cons_succ] at h
          have hj := ih j' h
          have hr : 0 ≤ lastIndexOfChar rest c := le_trans (by positivity) hj
          simp only [lastIndexOfChar]
          rw [if_pos hr]
          omega

/-- A non-negative last index decomposes the list around the last
occurrence: everything after it is free of the character. -/
theorem lastIndexOfChar_decomp (cs : List Char) (c : Char) (k : Nat)
    (h : lastIndexOfChar cs c = (k : Int)) :
    ∃ pre post, cs = pre ++ c :: post ∧ pre.length = k ∧ c ∉ post := by
  induction cs generalizing k with
  | nil => simp [lastIndexOfChar] at h
  | cons ch rest ih =>
      simp only [lastIndexOfChar] at h
      by_cases hr : 0 ≤ lastIndexOfChar rest c
      · rw [if_pos hr] at h
        obtain ⟨k', hk'⟩ : ∃ k' : Nat, lastIndexOfChar rest c = (k' : Int) :=
          ⟨(lastIndexOfChar rest c).toNat, (Int.toNat_of_nonneg hr).symm⟩
        obtain ⟨pre, post, hcs, hlen, hpost⟩ := ih k' hk'
        have hkk : k = k' + 1 := by omega
        subst hkk
        exact ⟨ch :: pre, post, by rw [hcs]; rfl, by simp [hlen], hpost⟩
      · rw [if_neg hr] at h
        by_cases hc : ch = c
        · rw [if_pos hc] at h
          subst hc
          have hk0 : k = 0 := by omega
          subst hk0
          refine ⟨[], rest, rfl, rfl, ?_⟩
          intro hmem
          exact hr (lastIndexOfChar_nonneg_of_mem rest ch hmem)
        · rw [if_neg hc] at h
          omega

/-- C8: tag extraction from an image reference.  The four spec examples
hold; a (trimmed) reference containing `@` never yields a tag; and any
returned tag is the trimmed substring after the last `:` of the trimmed
reference, with no `:` and no `/` after that colon (so registry-port
colons are never mistaken for tag separators). -/
theorem tryExtractImageTag_spec :
    tryExtractImageTag "repo:v1" = some "v1" ∧
    tryExtractImageTag "myregistry:5000/repo:v2" = some "v2" ∧
    tryExtractImageTag "repo@sha256:abcd" = none ∧
    tryExtractImageTag "repo" = none ∧
    (∀ image : String, jsIncludes (jsTrim image) "@" = true → tryExtractImageTag image = none) ∧
    (∀ image t, tryExtractImageTag image = some t →
      ∃ pre post, (jsTrim image).data = pre ++ ':' :: post ∧
        ':' ∉ post ∧ '/' ∉ post ∧ t = jsTrim (String.mk post) ∧ t ≠ "") := by
  refine ⟨by decide, by decide, by decide, by decide, ?_, ?_⟩
  · intro image hat
    simp only [tryExtractImageTag]
    by_cases hv : jsTrim image = "" <;> simp [hv, hat]
  · intro image t h
    simp only [tryExtractImageTag] at h
    by_cases hv : jsTrim image = ""
    · rw [if_pos hv] at h
      exact Option.noConfusion h
    rw [if_neg hv] at h
    by_cases hat : jsIncludes (jsTrim image) "@" = true
    · rw [if_pos hat] at h
      exact Option.noConfusion h
    rw [if_neg hat] at h
    by_cases hcmp : jsLastIndexOf (jsTrim image) '/' < jsLastIndexOf (jsTrim image) ':'
    case neg =>
      rw [if_neg hcmp] at h
      exact Option.noConfusion h
    rw [if_pos hcmp] at h
    by_cases htag : jsTrim (jsSliceFrom (jsTrim image) (jsLastIndexOf (jsTrim image) ':' + 1).toNat) = ""
    · rw [if_pos htag] at h
      exact Option.noConfusion h
    rw [if_neg htag] at h
    rw [Option.some_inj] at h
    subst h
    have hs := lastIndexOfChar_ge (jsTrim image).data '/'
    simp only [jsLastIndexOf] at hcmp htag ⊢
    have hcge : (0 : Int) ≤ lastIndexOfChar (jsTrim image).data ':' := by omega
    obtain ⟨k, hk⟩ : ∃ k : Nat, lastIndexOfChar (jsTrim image).data ':' = (k : Int) :=
      ⟨_, (Int.toNat_of_nonneg hcge).symm⟩
    obtain ⟨pre, post, hdecomp, hlen, hcolon⟩ := lastIndexOfChar_decomp _ _ _ hk
    have hsplit : pre ++ ':' :: post = (pre ++ [':']) ++ post := by simp
    have hlen2 : (pre ++ [':']).length = k + 1 := by simp [hlen]
    have htoNat : (lastIndexOfChar (jsTrim image).data ':' + 1).toNat = k + 1 := by
      rw [hk]
      omega
    have hdrop : (jsTrim image).data.drop (k + 1) = post := by
      rw [hdecomp, hsplit, ← hlen2, List.drop_left]
    refine ⟨pre, post, hdecomp, hcolon, ?_, ?_, ?_⟩
    · intro hmem
      obtain ⟨j, hj⟩ : ∃ j : Nat, post[j]? = some '/' := by
        obtain ⟨j, hjlt, hjeq⟩ := List.mem_iff_getElem.mp hmem
        exact ⟨j, by rw [List.getElem?_eq_getElem hjlt, hjeq]⟩
      have hfull : (jsTrim image).data[(k + 1) + j]? = some '/' := by
        rw [hdecomp, hsplit, List.getElem?_append]
        rw [if_neg (by simp [hlen])]
        simpa [hlen2] using hj
      have := lastIndexOfChar_ge_of_getElem? _ '/' _ hfull
      omega
    · simp only [jsSliceFrom, htoNat, hdrop]
    · simpa [jsLastIndexOf] using htag

/-- Witness for C8: the digest clause applied at a concrete reference. -/
theorem tryExtractImageTag_spec_witness :
    tryExtractImageTag "repo@sha256:ffff" = none :=
  tryExtractImageTag_spec.2.2.2.2.1 "repo@sha256:ffff" (by decide)

/-- Warnings only grow along the passthrough loop. -/
theorem appendRunnerEnv_warns_mono (entries : List (String × String)) (env : List EnvVar)
    (warns : List String) (w : String) (hw : w ∈ warns) :
    w ∈ (appendRunnerEnv env warns entries).2 := by
  induction entries generalizing env warns with
  | nil => exact hw
  | cons q rest ih =>
      obtain ⟨name, value⟩ := q
      simp only [appendRunnerEnv]
      cases hres : isReservedEnvName name
      · simp only [hres, Bool.false_eq_true, if_false]
        exact ih _ _ hw
      · simp only [hres, if_true]
        exact ih _ _ (List.mem_append_left _ hw)

/-- Every reserved key offered to the passthrough loop leaves its warning
in the log. -/
theorem appendRunnerEnv_warns (entries : List (String × String)) (env : List EnvVar)
    (warns : List String) (p : String × String) (hp : p ∈ entries)
    (hres : isReservedEnvName p.1 = true) :
    ("runnerEnv ignored reserved key " ++ p.1) ∈ (appendRunnerEnv env warns entries).2 := by
  induction entries generalizing env warns with
  | nil => simp at hp
  | cons q rest ih =>
      obtain ⟨name, value⟩ := q
      simp only [appendRunnerEnv]
      rcases List.mem_cons.mp hp with rfl | hmem
      · simp only [hres, if_true]
        exact appendRunnerEnv_warns_mono rest _ _ _ (List.mem_append_right _ (by simp))
      · cases hres2 : isReservedEnvName name
        · simp only [hres2, Bool.false_eq_true, if_false]
          exact ih _ _ hmem
        · simp only [hres2, if_true]
          exact ih _ _ hmem

/-- The passthrough loop contributes nothing to the reserved-name slice of
the environment list. -/
theorem appendRunnerEnv_filter (entries : List (String × String)) (env : List EnvVar)
    (warns : List String) :
    (appendRunnerEnv env warns entries).1.filter (fun v => isReservedEnvName v.name) =
      env.filter (fun v => isReservedEnvName v.name) := by
  induction entries generalizing env warns with
  | nil => rfl
  | cons q rest ih =>
      obtain ⟨name, value⟩ := q
      simp only [appendRunnerEnv]
      cases hres : isReservedEnvName name
      · simp only [hres, Bool.false_eq_true, if_false]
        rw [ih]
        rw [List.filter_append]
        simp [List.filter, hres]
      · simp only [hres, if_true]
        exact ih _ _

/-- C3: for any passthrough map (in particular one containing the reserved
names `ENV`, `ENV_LABEL`, `PLATFORM`, `RUN_ID`, `BUILD_NUMBER`), the
reserved-name slice of the built environment list is exactly the
orchestrator-assigned variables — `ENV`/`ENV_LABEL` from the cell
environment, `PLATFORM` from the cell platform, `RUN_ID` from the fresh
token, and `BUILD_NUMBER` exactly when a tag is derivable — and each
reserved key offered by the passthrough map is dropped with a warning
(never an error: the builder is total). -/
theorem buildExecutionEnv_reserved_immune (tc : TestConfig) (re : List (String × String))
    (image runId : String) :
    (buildExecutionEnv tc (some re) image runId).1.filter (fun v => isReservedEnvName v.name) =
      [⟨"ENV", tc.env⟩, ⟨"ENV_LABEL", tc.env⟩, ⟨"PLATFORM", tc.platform⟩, ⟨"RUN_ID", runId⟩] ++
        (match tryExtractImageTag image with
         | some b => [⟨"BUILD_NUMBER", b⟩]
         | none => []) ∧
    ∀ p ∈ re, isReservedEnvName p.1 = true →
      ("runnerEnv ignored reserved key " ++ p.1) ∈ (buildExecutionEnv tc (some re) image runId).2 := by
  constructor
  · simp only [buildExecutionEnv]
    rcases htag : tryExtractImageTag image with _ | b <;>
      · simp only [htag]
        rw [appendRunnerEnv_filter]
        simp [List.filter, isReservedEnvName]
  · intro p hp hres
    simp only [buildExecutionEnv]
    rcases htag : tryExtractImageTag image with _ | b <;>
      · simp only [htag]
        exact appendRunnerEnv_warns _ _ _ p hp hres

/-- Witness for C3: a passthrough map that tries to override `ENV` and
`PLATFORM` and adds a legitimate key; the reserved slice keeps the
orchestrator values and both warnings are logged. -/
theorem buildExecutionEnv_reserved_immune_witness :
    (buildExecutionEnv ⟨"qa", "web"⟩
        (some [("ENV", "hacked"), ("PLATFORM", "hacked"), ("SUITE", "smoke")])
        "repo:v7" "ab12").1.filter (fun v => isReservedEnvName v.name) =
      [⟨"ENV", "qa"⟩, ⟨"ENV_LABEL", "qa"⟩, ⟨"PLATFORM", "web"⟩, ⟨"RUN_ID", "ab12"⟩,
       ⟨"BUILD_NUMBER", "v7"⟩] ∧
    ("runnerEnv ignored reserved key ENV") ∈
      (buildExecutionEnv ⟨"qa", "web"⟩
        (some [("ENV", "hacked"), ("PLATFORM", "hacked"), ("SUITE", "smoke")])
        "repo:v7" "ab12").2 := by
  have h := buildExecutionEnv_reserved_immune ⟨"qa", "web"⟩
    [("ENV", "hacked"), ("PLATFORM", "hacked"), ("SUITE", "smoke")] "repo:v7" "ab12"
  refine ⟨?_, ?_⟩
  · rw [h.1]
    decide
  · exact h.2 ("ENV", "hacked") (by decide) (by decide)

/-- The result of `startTestExecution` is always tagged with the cell it was asked
to run. -/
theorem startTestExecution_config (rg jn : String) (tc : TestConfig) (cc : ContainerConfig)
    (remote : StartExecutionRequest → Except String ArmExecution) (runId : String)
    (cnv : Option String) (now : String) :
    (startTestExecution rg jn tc cc remote runId cnv now).1.config = tc := by
  simp only [startTestExecution]
  split
  · rfl
  · split <;> rfl

/-- C2: `startTestExecution` never propagates a failure — it is a total
function into `JobExecutionResult`, always tagged with the requested cell.
On success the result carries `success = true`, no error, the start
timestamp, and the name/id resolved by the remote call; on failure it
carries `success = false` and a message in `error`; and when the image is
missing the one failed result carries the image error and the remote call
is never attempted. -/
theorem startTestExecution_never_throws (rg jn : String) (tc : TestConfig)
    (cc : ContainerConfig) (remote : StartExecutionRequest → Except String ArmExecution)
    (runId : String) (cnv : Option String) (now : String) :
    (startTestExecution rg jn tc cc remote runId cnv now).1.config = tc ∧
    ((startTestExecution rg jn tc cc remote runId cnv now).1.success = true →
      (startTestExecution rg jn tc cc remote runId cnv now).1.error = none ∧
      (startTestExecution rg jn tc cc remote runId cnv now).1.startedAt = some now ∧
      ∃ req exec, remote req = Except.ok exec ∧
        (startTestExecution rg jn tc cc remote runId cnv now).1.executionName =
          jsOrS exec.name "unknown" ∧
        (startTestExecution rg jn tc cc remote runId cnv now).1.executionId = exec.id) ∧
    ((startTestExecution rg jn tc cc remote runId cnv now).1.success = false →
      ∃ msg, (startTestExecution rg jn tc cc remote runId cnv now).1.error = some msg) ∧
    (∀ msg, requireTestAutomationRunnerImage cc.image = Except.error msg →
      (startTestExecution rg jn tc cc remote runId cnv now).1.success = false ∧
      (startTestExecution rg jn tc cc remote runId cnv now).1.error = some msg ∧
      (startTestExecution rg jn tc cc remote runId cnv now).2 = false) := by
  refine ⟨startTestExecution_config rg jn tc cc remote runId cnv now, ?_, ?_, ?_⟩
  · simp only [startTestExecution]
    split
    · intro h
      simp at h
    · split
      next execution heq =>
        intro _
        exact ⟨rfl, rfl, _, execution, heq, rfl, rfl⟩
      next e heq =>
        intro h
        simp at h
  · simp only [startTestExecution]
    split
    · intro _
      exact ⟨_, rfl⟩
    · split
      next execution heq =>
        intro h
        simp at h
      next e heq =>
        intro _
        exact ⟨e, rfl⟩
  · intro msg hmsg
    simp [startTestExecution, hmsg]

/-- Witness for C2: a missing image yields one failed result without
reaching the remote call. -/
theorem startTestExecution_never_throws_witness :
    (startTestExecution "rg" "runner-job" ⟨"qa", "web"⟩
        ⟨none, 1, 2, none, none⟩ (fun _ => Except.ok ⟨some "e1", some "id1"⟩)
        "ab12" none "2026-01-01T00:00:00Z").1.success = false ∧
    (startTestExecution "rg" "runner-job" ⟨"qa", "web"⟩
        ⟨none, 1, 2, none, none⟩ (fun _ => Except.ok ⟨some "e1", some "id1"⟩)
        "ab12" none "2026-01-01T00:00:00Z").2 = false := by
  have h := (startTestExecution_never_throws "rg" "runner-job" ⟨"qa", "web"⟩
    ⟨none, 1, 2, none, none⟩ (fun _ => Except.ok ⟨some "e1", some "id1"⟩)
    "ab12" none "2026-01-01T00:00:00Z").2.2.2 _ rfl
  exact ⟨h.1, h.2.2⟩

/-! ## OrchestrationService lemmas and claims -/

/-- No failed executions exactly when every execution succeeded. -/
theorem failed_zero_iff_all (results : List JobExecutionResult) :
    (results.filter (fun r => !r.success)).length = 0 ↔ ∀ r ∈ results, r.success = true := by
  rw [List.length_eq_zero, List.filter_eq_nil_iff]
  constructor
  · intro h r hr
    simpa using h r hr
  · intro h r hr
    simp [h r hr]

/-- All executions failed exactly when the failed count exhausts the
list. -/
theorem allFailed_iff (results : List JobExecutionResult) :
    (results.filter (fun r => !r.success)).length = results.length ↔
      ∀ r ∈ results, r.success = false := by
  constructor
  · intro h r hr
    simpa using List.filter_length_eq_length.mp h r hr
  · intro h
    apply List.filter_length_eq_length.mpr
    intro r hr
    simp [h r hr]

/-- C9: the report always satisfies `successful + failed = total` and
`success ⟺ failed = 0` (equivalently, every result succeeded); the message
is the fixed success string when nothing failed, else the template naming
the failure count. -/
theorem executeTests_report_invariants (results : List JobExecutionResult) (ts : String) :
    (summarizeResults results ts).successful + (summarizeResults results ts).failed =
      (summarizeResults results ts).totalExecutions ∧
    ((summarizeResults results ts).success = true ↔ (summarizeResults results ts).failed = 0) ∧
    ((summarizeResults results ts).success = true ↔ ∀ r ∈ results, r.success = true) ∧
    ((summarizeResults results ts).failed = 0 →
      (summarizeResults results ts).message = "All executions started successfully") ∧
    ((summarizeResults results ts).failed ≠ 0 →
      (summarizeResults results ts).message =
        toString (summarizeResults results ts).failed ++ " execution(s) failed to start") := by
  refine ⟨?_, ?_, ?_, ?_, ?_⟩
  · exact (List.length_eq_length_filter_add (fun r : JobExecutionResult => r.success)).symm
  · simp [summarizeResults]
  · simp only [summarizeResults, beq_iff_eq]
    exact failed_zero_iff_all results
  · intro h
    simp only [summarizeResults] at h ⊢
    simp [h]
  · intro h
    simp only [summarizeResults] at h ⊢
    rw [if_neg (by simpa using h)]

/-- The three-cell example for C9: the middle dispatch failed. -/
def exampleThreeResults : List JobExecutionResult :=
  [{ jobName := "runner-job", executionName := "e1", executionId := some "id1",
     config := ⟨"qa", "web"⟩, success := true, error := none, startedAt := some "t1" },
   { jobName := "runner-job", executionName := "unknown", executionId := none,
     config := ⟨"qa", "mobile"⟩, success := false, error := some "boom", startedAt := none },
   { jobName := "runner-job", executionName := "e3", executionId := some "id3",
     config := ⟨"prod", "web"⟩, success := true, error := none, startedAt := some "t3" }]

/-- Witness for C9 at the spec example: 3 cells, one failed dispatch gives
`total = 3`, `successful = 2`, `failed = 1`, `success = false`, and the
message mentions `1`. -/
theorem executeTests_report_invariants_witness :
    (summarizeResults exampleThreeResults "t").successful +
        (summarizeResults exampleThreeResults "t").failed =
      (summarizeResults exampleThreeResults "t").totalExecutions ∧
    (summarizeResults exampleThreeResults "t").totalExecutions = 3 ∧
    (summarizeResults exampleThreeResults "t").successful = 2 ∧
    (summarizeResults exampleThreeResults "t").failed = 1 ∧
    (summarizeResults exampleThreeResults "t").success = false ∧
    jsIncludes (summarizeResults exampleThreeResults "t").message "1" = true :=
  ⟨(executeTests_report_invariants exampleThreeResults "t").1,
   by decide, by decide, by decide, by decide, by decide⟩

/-- C5 (amended): the operator hint is logged exactly when the result list
is non-empty, every execution failed to start, and at least one lower-cased
error message matches the job-not-found pattern; the returned report is the
summary of the results alone, unaffected by the hint. -/
theorem jobNotFoundHint_characterization (results : List JobExecutionResult) (ts : String) :
    ((executeTestsReport results ts).2 = true ↔
      (results ≠ [] ∧ (∀ r ∈ results, r.success = false) ∧
        ∃ r ∈ results, errorIndicatesJobNotFound (jsToLower (jsOrS r.error "")) = true)) ∧
    (executeTestsReport results ts).1 = summarizeResults results ts := by
  refine ⟨?_, rfl⟩
  simp only [executeTestsReport, jobNotFoundHint, Bool.and_eq_true, decide_eq_true_eq,
    beq_iff_eq, List.any_eq_true, List.mem_map]
  constructor
  · rintro ⟨⟨hpos, hall⟩, e, ⟨r, hr, rfl⟩, hind⟩
    exact ⟨List.length_pos.mp hpos, (allFailed_iff results).mp hall, r, hr, hind⟩
  · rintro ⟨hne, hall, r, hr, hind⟩
    exact ⟨⟨List.length_pos.mpr hne, (allFailed_iff results).mpr hall⟩,
      jsToLower (jsOrS r.error ""), ⟨r, hr, rfl⟩, hind⟩

/-- Witness for C5 (amended) at a concrete all-failed list with one
matching error. -/
theorem jobNotFoundHint_characterization_witness :
    (executeTestsReport
      [{ jobName := "runner-job", executionName := "unknown", executionId := none,
         config := ⟨"qa", "web"⟩, success := false,
         error := some "Microsoft.App/jobs runner-job not found", startedAt := none }] "t").2 =
      true :=
  (jobNotFoundHint_characterization
      [{ jobName := "runner-job", executionName := "unknown", executionId := none,
         config := ⟨"qa", "web"⟩, success := false,
         error := some "Microsoft.App/jobs runner-job not found", startedAt := none }] "t").1.mpr
    ⟨by decide, by decide,
     ⟨{ jobName := "runner-job", executionName := "unknown", executionId := none,
        config := ⟨"qa", "web"⟩, success := false,
        error := some "Microsoft.App/jobs runner-job not found", startedAt := none },
      by decide, by decide⟩⟩

/-- The two-cell run refuting the "every error message" reading of the
hint condition: both cells failed, only the first error matches the
pattern. -/
def mixedFailureResults : List JobExecutionResult :=
  [{ jobName := "runner-job", executionName := "unknown", executionId := none,
     config := ⟨"qa", "web"⟩, success := false,
     error := some "Microsoft.App/jobs runner-job not found", startedAt := none },
   { jobName := "runner-job", executionName := "unknown", executionId := none,
     config := ⟨"qa", "mobile"⟩, success := false,
     error := some "request timed out", startedAt := none }]

/-- C5 counterexample: on `mixedFailureResults` every execution failed and
the hint is emitted, yet not every error message matches the job-not-found
pattern — so "emitted iff every result failed and every error message
indicates target job not found" is false on the code. -/
theorem jobNotFoundHint_not_every_counterexample :
    jobNotFoundHint mixedFailureResults = true ∧
    (∀ r ∈ mixedFailureResults, r.success = false) ∧
    ¬ (∀ r ∈ mixedFailureResults,
        errorIndicatesJobNotFound (jsToLower (jsOrS r.error "")) = true) := by
  refine ⟨by decide, by decide, ?_⟩
  intro h
  have := h
    { jobName := "runner-job", executionName := "unknown", executionId := none,
      config := ⟨"qa", "mobile"⟩, success := false,
      error := some "request timed out", startedAt := none }
    (by decide)
  exact absurd this (by decide)

/-! ## Scheduler claims -/

/-- The worker `executeTests` hands to `runWithConcurrencyLimit`,
as a function of the claimed index `i`: dispatch cell `matrix[i]` through
`startTestExecution` with that call's remote outcome (`remote i`), fresh
run token (`uuid i`) and start timestamp (`now i`). -/
def executeTestsWorker (resourceGroup jobName : String) (cc : ContainerConfig)
    (remote : Nat → StartExecutionRequest → Except String ArmExecution)
    (uuid now : Nat → String) (cnv : Option String) (matrix : List TestConfig) :
    Nat → JobExecutionResult :=
  fun i =>
    (startTestExecution resourceGroup jobName (matrix.getD i ⟨"", ""⟩) cc (remote i)
      (uuid i) cnv (now i)).1

/-- C1 counterexample: the concurrency limit reaching the scheduler is a
JavaScript number, and `getConcurrencyLimit` can return the fractional
`2.5` (raw configured value `"2.5"` parses and clamps to itself).  At 3
matrix cells the lane count `Math.min(Math.max(1, 2.5), 3) = 2.5` is not
an integer, so `new Array(2.5)` throws `RangeError` and
`runWithConcurrencyLimit` returns no result sequence at all — refuting the
claim for "every concurrency limit". -/
theorem runWithConcurrencyLimit_fractional_counterexample :
    getConcurrencyLimit (some "2.5") none 10 = 5 / 2 ∧
    initPool JobExecutionResult 3 (5 / 2) =
      Except.error "RangeError: Invalid array length" := by
  constructor
  · simp [getConcurrencyLimit, jsTrim, jsTrimList, jsOrS, jsNumber, digitsVal,
      List.takeWhile, List.dropWhile, clampConcurrency]
    try norm_num
  · have hq : laneCount 3 (5 / 2 : ℚ) = 5 / 2 := by
      simp only [laneCount]
      rw [max_eq_right (by norm_num), min_eq_left (by push_cast; norm_num)]
    have harr : jsNewArrayLen (laneCount 3 (5 / 2 : ℚ)) =
        Except.error "RangeError: Invalid array length" := by
      rw [hq, jsNewArrayLen, if_neg (by norm_num)]
    simp only [initPool, harr]

/-- C1 (amended): for every matrix of length `N` and every concurrency
limit for which the lane-array allocation succeeds — in particular every
integer-valued limit, with values below 1 treated as 1 — any completed run
of the scheduler over the `executeTests` worker (any reachable state of
the pool in which all lanes have returned, whatever the interleaving of
completions and whether individual dispatches failed) holds exactly `N`
results, and slot `i` holds the worker result for input item `i`, whose
`config` is `matrix[i]`.  (For a fractional limit below the item count the
allocation itself throws `RangeError` — see the counterexample — and no
result sequence is produced.) -/
theorem executeTests_index_correspondence
    (matrix : List TestConfig) (concurrencyLimit : ℚ)
    (resourceGroup jobName : String) (cc : ContainerConfig)
    (remote : Nat → StartExecutionRequest → Except String ArmExecution)
    (uuid now : Nat → String) (cnv : Option String)
    (s0 s : PoolState JobExecutionResult)
    (hinit : initPool JobExecutionResult matrix.length concurrencyLimit = Except.ok s0)
    (hreach : Relation.ReflTransGen
      (PoolStep JobExecutionResult matrix.length
        (executeTestsWorker resourceGroup jobName cc remote uuid now cnv matrix))
      s0 s)
    (hdone : PoolDone s) :
    s.results.length = matrix.length ∧
    ∀ i, (hi : i < matrix.length) →
      s.results[i]? =
        some (some (executeTestsWorker resourceGroup jobName cc remote uuid now cnv matrix i)) ∧
      (executeTestsWorker resourceGroup jobName cc remote uuid now cnv matrix i).config =
        matrix[i] := by
  obtain ⟨hlen, hall⟩ := pool_final hinit hreach hdone
  refine ⟨hlen, fun i hi => ⟨hall i hi, ?_⟩⟩
  simp only [executeTestsWorker]
  rw [startTestExecution_config]
  exact List.getD_eq_getElem matrix ⟨"", ""⟩ hi

/-- Concrete two-cell matrix for the C1 witness. -/
def witnessMatrix : List TestConfig := [⟨"qa", "web"⟩, ⟨"prod", "web"⟩]

/-- Concrete remote outcomes for the C1 witness. -/
def witnessRemote : Nat → StartExecutionRequest → Except String ArmExecution :=
  fun i _ => Except.ok ⟨some ("exec" ++ toString i), some ("id" ++ toString i)⟩

/-- The C1 witness worker over `witnessMatrix`. -/
def witnessWorker : Nat → JobExecutionResult :=
  executeTestsWorker "rg" "runner-job" ⟨some "repo:v1", 1, 2, none, none⟩ witnessRemote
    (fun _ => "ab12") (fun _ => "t0") none witnessMatrix

/-- The freshly allocated pool of the C1 witness run (limit 1, two
items). -/
def witnessStart : PoolState JobExecutionResult :=
  { cursor := 0
  , results := List.replicate 2 none
  , lanes := [LaneState.atLoop] }

/-- The final pool state of the C1 witness run. -/
def witnessFinal : PoolState JobExecutionResult :=
  { cursor := 3
  , results := [some (witnessWorker 0), some (witnessWorker 1)]
  , lanes := [LaneState.done] }

/-- The prologue of the C1 witness run succeeds: the integer limit 1 over
two items allocates one lane. -/
theorem witnessInit :
    initPool JobExecutionResult 2 1 = Except.ok witnessStart := by
  have hq : laneCount 2 (1 : ℚ) = 1 := by
    simp only [laneCount]
    rw [max_self]
    exact min_eq_left (by push_cast; norm_num)
  have harr : jsNewArrayLen (laneCount 2 (1 : ℚ)) = Except.ok 1 := by
    rw [hq, jsNewArrayLen, if_pos (by norm_num)]
    norm_num
  simp only [initPool, harr, witnessStart]
  rfl

/-- An explicit scheduler run for the C1 witness: one lane claims and
resolves both slots in order and then returns. -/
theorem witnessTrace :
    Relation.ReflTransGen (PoolStep JobExecutionResult 2 witnessWorker)
      witnessStart witnessFinal := by
  refine Relation.ReflTransGen.head (PoolStep.claim _ 0 rfl (by decide)) ?_
  refine Relation.ReflTransGen.head (PoolStep.resume _ 0 0 rfl) ?_
  refine Relation.ReflTransGen.head (PoolStep.claim _ 0 rfl (by decide)) ?_
  refine Relation.ReflTransGen.head (PoolStep.resume _ 0 1 rfl) ?_
  refine Relation.ReflTransGen.head (PoolStep.claimStop _ 0 rfl (by decide)) ?_
  exact Relation.ReflTransGen.refl

/-- Witness for C1 (amended): the concrete two-cell run with limit 1 —
where the allocation succeeds — fills both slots with their own cells, in
input order. -/
theorem executeTests_index_correspondence_witness :
    witnessFinal.results.length = witnessMatrix.length ∧
    witnessFinal.results[0]? = some (some (witnessWorker 0)) ∧
    (witnessWorker 0).config = ⟨"qa", "web"⟩ ∧
    witnessFinal.results[1]? = some (some (witnessWorker 1)) ∧
    (witnessWorker 1).config = ⟨"prod", "web"⟩ := by
  have h := executeTests_index_correspondence witnessMatrix 1 "rg" "runner-job"
    ⟨some "repo:v1", 1, 2, none, none⟩ witnessRemote (fun _ => "ab12") (fun _ => "t0") none
    witnessStart witnessFinal witnessInit witnessTrace (by
      intro l hl
      simp [witnessFinal] at hl
      exact hl)
  exact ⟨h.1, (h.2 0 (by decide)).1, (h.2 0 (by decide)).2, (h.2 1 (by decide)).1,
    (h.2 1 (by decide)).2⟩

/-- C10: with an empty matrix the lane-array allocation succeeds for every
concurrency limit (fractional ones included, since the lane count
`min(max(1, limit), 0)` is the integer 0), the scheduler spawns zero lanes,
can take no step (so no dispatch is ever attempted), is immediately
complete, and the run reports `total = 0`, `successful = 0`, `failed = 0`,
`success = true` with the fixed all-successful message and no hint. -/
theorem executeTests_empty_matrix (concurrencyLimit : ℚ) (f : Nat → JobExecutionResult)
    (ts : String) (s : PoolState JobExecutionResult)
    (hreach : Relation.ReflTransGen (PoolStep JobExecutionResult 0 f)
      { cursor := 0, results := ([] : List (Option JobExecutionResult)), lanes := [] } s) :
    initPool JobExecutionResult 0 concurrencyLimit =
      Except.ok { cursor := 0, results := ([] : List (Option JobExecutionResult)), lanes := [] } ∧
    s = { cursor := 0, results := ([] : List (Option JobExecutionResult)), lanes := [] } ∧
    s.lanes = [] ∧ s.results = [] ∧ PoolDone s ∧
    executeTestsReport [] ts =
      ({ success := true, message := "All executions started successfully",
         totalExecutions := 0, successful := 0, failed := 0, executions := [],
         timestamp := ts },
       false) := by
  have hs := pool_frozen_reach rfl hreach
  subst hs
  refine ⟨initPool_zero JobExecutionResult concurrencyLimit, rfl, rfl, rfl, ?_, rfl⟩
  intro l hl
  simp at hl

/-- Witness for C10: the empty run even at the fractional limit 2.5
allocates successfully and reports success. -/
theorem executeTests_empty_matrix_witness :
    initPool JobExecutionResult 0 (5 / 2) =
      Except.ok { cursor := 0, results := ([] : List (Option JobExecutionResult)), lanes := [] } ∧
    executeTestsReport [] "t" =
      ({ success := true, message := "All executions started successfully",
         totalExecutions := 0, successful := 0, failed := 0, executions := [],
         timestamp := "t" },
       false) :=
  ⟨(executeTests_empty_matrix (5 / 2)
      (fun _ => { jobName := "", executionName := "", executionId := none, config := ⟨"", ""⟩,
                  success := true, error := none, startedAt := none })
      "t" { cursor := 0, results := [], lanes := [] } Relation.ReflTransGen.refl).1,
   (executeTests_empty_matrix (5 / 2)
      (fun _ => { jobName := "", executionName := "", executionId := none, config := ⟨"", ""⟩,
                  success := true, error := none, startedAt := none })
      "t" { cursor := 0, results := [], lanes := [] } Relation.ReflTransGen.refl).2.2.2.2.2⟩

end TestOrchestrator
